import Mathlib

/-!
Verification of the sequelize core: the Snowflake dialect query generator
(src/packages/core/src/dialects/snowflake/query-generator-typescript.ts) and the
transaction / bulk-operation engine of `SequelizeTypeScript`
(src/unnamed/part_000).

Conventions of this embedding:
 * JavaScript runtime option objects are modelled as association lists of
   key/value pairs (`OptionsObject`); reading a key mirrors property access,
   and JS truthiness of a string value (`""` is falsy) is modelled by
   `truthyOf`.
 * Throwing functions are modelled with `Except SequelizeError`;
   functions whose source can never throw are total `String` functions.
 * Asynchronous stateful code (transactions, connections) is modelled by
   explicit state passing over a world record carrying an allocation counter
   (object identity of `new Transaction(...)` / acquired connections) and an
   event log of the collaborator calls that were issued.
 * Collaborators whose code is not part of the given sources (the
   `Transaction` class methods, the connection manager, the model registry,
   `rejectInvalidOptions`, `joinSQLFragments`, escaping/quoting) are modelled
   from the spec, as marked in their doc comments.
-/

/-! ## Character-level string helpers -/

/-- The single-quote character used by SQL string literals. -/
def sqChar : Char := Char.ofNat 39

/-- Doubles every occurrence of the character `q` in a character list
(the classic SQL escaping of an embedded quote). -/
def doubleChar (q : Char) : List Char → List Char
  | [] => []
  | c :: rest =>
    if c = q then c :: c :: doubleChar q rest else c :: doubleChar q rest

/-- Modelled from the spec: the value-escaping primitive exposed by the query
generator (§4.3/§6, "escaping is injection-safe"): wraps a string value in
single quotes, doubling embedded single quotes. The concrete implementation
(`AbstractQueryGenerator#escape`) is not part of the given sources. -/
def escape (s : String) : String :=
  String.mk (sqChar :: (doubleChar sqChar s.data ++ [sqChar]))

/-- Modelled from the spec: the identifier-quoting primitive exposed by the
query generator (§4.3/§6): wraps an identifier in double quotes, doubling
embedded double quotes. The concrete implementation is not part of the given
sources. -/
def quoteIdentifier (s : String) : String :=
  String.mk ('"' :: (doubleChar '"' s.data ++ ['"']))

/-- `leadsWith pat l` is true when `pat` occurs at the very start of `l`. -/
def leadsWith : List Char → List Char → Bool
  | [], _ => true
  | _ :: _, [] => false
  | a :: xs, b :: ys => a == b && leadsWith xs ys

/-- `occursIn pat l` is true when `pat` occurs contiguously anywhere in `l`. -/
def occursIn (pat : List Char) : List Char → Bool
  | [] => leadsWith pat []
  | c :: rest => leadsWith pat (c :: rest) || occursIn pat rest

/-- The string `sub` occurs contiguously inside `s`. -/
def strContains (s sub : String) : Prop := occursIn sub.data s.data = true

/-- The string `s` ends with the string `sub`. -/
def endsIn (s sub : String) : Prop := ∃ a : List Char, s.data = a ++ sub.data

theorem leadsWith_self_append (p b : List Char) : leadsWith p (p ++ b) = true := by
  induction p with
  | nil => rfl
  | cons a xs ih => simp [leadsWith, ih]

theorem occursIn_of_leadsWith (p l : List Char) (h : leadsWith p l = true) :
    occursIn p l = true := by
  cases l with
  | nil => exact h
  | cons c rest => simp [occursIn, h]

theorem occursIn_append (a p b : List Char) : occursIn p (a ++ (p ++ b)) = true := by
  induction a with
  | nil => exact occursIn_of_leadsWith _ _ (leadsWith_self_append p b)
  | cons c a' ih => simp [occursIn, ih]

theorem strContains_intro (s sub : String) (x z : List Char)
    (h : s.data = x ++ (sub.data ++ z)) : strContains s sub := by
  unfold strContains
  rw [h]
  exact occursIn_append x sub.data z

/-! ## Errors -/

/-- The errors surfaced by the modelled operations. Plain `Error` objects
thrown by the source are represented by `plainMessage` carrying the exact
message string; the validator errors of spec §4.2 and the transaction
compatibility error of §4.4 get their own constructors; `userError` stands
for an arbitrary error produced by a user callback or a collaborator. -/
inductive SequelizeError
  | plainMessage (message : String)
  | dialectNotSupported (operationName dialectName optionName : String)
  | unknownOption (operationName optionName : String)
  | transactionIncompatible
  | userError (code : Nat)
deriving DecidableEq

/-! ## Runtime option objects -/

/-- A runtime value stored under an option key: a string or an array of
strings (the only shapes the modelled operations inspect). -/
inductive OptionValue
  | str (s : String)
  | list (l : List String)
deriving DecidableEq

/-- A JavaScript option object at runtime: an ordered list of key/value
pairs. -/
abbrev OptionsObject := List (String × OptionValue)

/-- Property access `o.key`. -/
def getOption (o : OptionsObject) (key : String) : Option OptionValue :=
  (o.find? (fun kv => kv.fst == key)).map (fun kv => kv.snd)

/-- `Object.keys(o)`. -/
def optionKeys (o : OptionsObject) : List String := o.map Prod.fst

/-- JavaScript truthiness of an option value: the empty string is falsy,
every non-empty string and every array is truthy. -/
def truthyOf : OptionValue → Bool
  | .str s => decide (s ≠ "")
  | .list _ => true

/-- Escaping a runtime option value: strings are escaped directly, arrays
element-wise (comma separated), mirroring `escape` on arrays. -/
def escapeValue : OptionValue → String
  | .str s => escape s
  | .list l => String.intercalate ", " (l.map escape)

/-- Modelled from the spec (§4.2): `rejectInvalidOptions`. For the first key
of the supplied options that is not in the supported set: if the key is in
the supportable set the result is a `DialectNotSupportedError`, otherwise an
`UnknownOptionError`. Returns `none` when every supplied key is supported.
The concrete implementation (`utils/check.ts`) is not part of the given
sources. -/
def rejectInvalidOptions (operationName dialectName : String)
    (supportableOptions supportedOptions : List String)
    (suppliedOptions : OptionsObject) : Option SequelizeError :=
  match (optionKeys suppliedOptions).find?
      (fun k => !(supportedOptions.contains k)) with
  | none => none
  | some k =>
    if supportableOptions.contains k then
      some (.dialectNotSupported operationName dialectName k)
    else
      some (.unknownOption operationName k)

/-- Modelled from the spec (§4.1): the SQL fragment assembler
`joinSQLFragments`: non-empty fragments joined with a single space, empty
fragments dropped. (The terminal-semicolon normalization of §4.1 is never
exercised by the modelled call sites, which contain no semicolons.) The
concrete implementation (`utils/join-sql-fragments.ts`) is not part of the
given sources. -/
def joinSQLFragments : List String → String
  | [] => ""
  | f :: rest =>
    if f = "" then joinSQLFragments rest
    else
      let tail := joinSQLFragments rest
      if tail = "" then f else f ++ " " ++ tail

/-! ## The Snowflake query generator -/

/-- `this.dialect.name` for the Snowflake dialect. -/
def snowflakeDialectName : String := "snowflake"

/-- Modelled from the spec (§4.3, Glossary "Technical schema"): the
dialect-defined set of technical/system schemas excluded by default from
listings. The concrete list (`SnowflakeQueryGeneratorInternal.
getTechnicalSchemaNames`) is not part of the given sources; its exact
contents are immaterial to the claims. -/
def technicalSchemaNames : List String := ["INFORMATION_SCHEMA"]

/-- Modelled from the spec (§2.4 dual-set pattern, §4.3 table): the
supportable option keys of `createDatabaseQuery` declared by the abstract
generator. The concrete set lives in
`dialects/abstract/query-generator-typescript.ts`, which is not part of the
given sources; its exact contents are immaterial to the claims. -/
def CREATE_DATABASE_QUERY_SUPPORTABLE_OPTIONS : List String :=
  ["charset", "collate", "ctype", "encoding", "template"]

/-- Modelled from the spec: supportable option keys of `listDatabasesQuery`
(see `CREATE_DATABASE_QUERY_SUPPORTABLE_OPTIONS`). -/
def LIST_DATABASES_QUERY_SUPPORTABLE_OPTIONS : List String := ["skip"]

/-- Modelled from the spec: supportable option keys of
`showConstraintsQuery` (see `CREATE_DATABASE_QUERY_SUPPORTABLE_OPTIONS`). -/
def SHOW_CONSTRAINTS_QUERY_SUPPORTABLE_OPTIONS : List String :=
  ["columnName", "constraintName", "constraintType"]

/-- Modelled from the spec: supportable option keys of `truncateTableQuery`
(see `CREATE_DATABASE_QUERY_SUPPORTABLE_OPTIONS`). -/
def TRUNCATE_TABLE_QUERY_SUPPORTABLE_OPTIONS : List String :=
  ["cascade", "restartIdentity"]

/-- Snowflake: `CREATE_DATABASE_QUERY_SUPPORTED_OPTIONS` (empty set, from the
source). -/
def CREATE_DATABASE_QUERY_SUPPORTED_OPTIONS : List String := []

/-- Snowflake: `LIST_DATABASES_QUERY_SUPPORTED_OPTIONS` (empty set, from the
source). -/
def LIST_DATABASES_QUERY_SUPPORTED_OPTIONS : List String := []

/-- Snowflake: `SHOW_CONSTRAINTS_QUERY_SUPPORTED_OPTIONS` (from the source). -/
def SHOW_CONSTRAINTS_QUERY_SUPPORTED_OPTIONS : List String :=
  ["constraintName", "constraintType"]

/-- Snowflake: `TRUNCATE_TABLE_QUERY_SUPPORTED_OPTIONS` (empty set, from the
source). -/
def TRUNCATE_TABLE_QUERY_SUPPORTED_OPTIONS : List String := []

/-- A table reference before resolution: a plain table name or a
(schema, name) pair (spec §3, "Table/column reference"). -/
inductive TableNameOrModel
  | plain (name : String)
  | qualified (schema name : String)
deriving DecidableEq

/-- A resolved table reference. -/
structure TableDetails where
  tableName : String
  schema : String
deriving DecidableEq

/-- Modelled from the spec (§3): `extractTableDetails` — total,
side-effect-free resolution of a table reference; a plain name resolves to
the dialect/default schema. The concrete implementation lives in the abstract
generator, which is not part of the given sources. -/
def extractTableDetails (defaultSchema : String) : TableNameOrModel → TableDetails
  | .plain name => ⟨name, defaultSchema⟩
  | .qualified schema name => ⟨name, schema⟩

/-- Modelled from the spec: `quoteTable` — quotes a resolved table reference,
schema-qualified when a schema is present. -/
def quoteTable (defaultSchema : String) (t : TableNameOrModel) : String :=
  let td := extractTableDetails defaultSchema t
  if td.schema = "" then quoteIdentifier td.tableName
  else quoteIdentifier td.schema ++ "." ++ quoteIdentifier td.tableName

/-- Snowflake `createDatabaseQuery` (source lines 46–60): validates supplied
options, then emits `CREATE DATABASE IF NOT EXISTS <db>`. -/
def createDatabaseQuery (database : String) (options : Option OptionsObject) :
    Except SequelizeError String :=
  match options with
  | some o =>
    match rejectInvalidOptions "createDatabaseQuery" snowflakeDialectName
        CREATE_DATABASE_QUERY_SUPPORTABLE_OPTIONS
        CREATE_DATABASE_QUERY_SUPPORTED_OPTIONS o with
    | some e => .error e
    | none =>
      .ok (joinSQLFragments ["CREATE DATABASE IF NOT EXISTS " ++ quoteIdentifier database])
  | none =>
    .ok (joinSQLFragments ["CREATE DATABASE IF NOT EXISTS " ++ quoteIdentifier database])

/-- Snowflake `listDatabasesQuery` (source lines 62–74). -/
def listDatabasesQuery (options : Option OptionsObject) :
    Except SequelizeError String :=
  match options with
  | some o =>
    match rejectInvalidOptions "listDatabasesQuery" snowflakeDialectName
        LIST_DATABASES_QUERY_SUPPORTABLE_OPTIONS
        LIST_DATABASES_QUERY_SUPPORTED_OPTIONS o with
    | some e => .error e
    | none => .ok "SHOW DATABASES"
  | none => .ok "SHOW DATABASES"

/-- Snowflake `listSchemasQuery` (source lines 76–87): never validates its
options; appends `options.skip` to the technical schemas when it is an
array. Total — no code path throws. -/
def listSchemasQuery (options : Option OptionsObject) : String :=
  let schemasToSkip : List String :=
    match options with
    | some o =>
      match getOption o "skip" with
      | some (.list l) => technicalSchemaNames ++ l
      | _ => technicalSchemaNames
    | none => technicalSchemaNames
  joinSQLFragments [
    "SELECT SCHEMA_NAME AS \"schema\"",
    "FROM INFORMATION_SCHEMA.SCHEMATA",
    "WHERE SCHEMA_NAME NOT IN ("
      ++ String.intercalate ", " (schemasToSkip.map escape) ++ ")"]

/-- Snowflake `describeTableQuery` (source lines 89–91). -/
def describeTableQuery (defaultSchema : String) (tableName : TableNameOrModel) : String :=
  "SHOW FULL COLUMNS FROM " ++ quoteTable defaultSchema tableName ++ ";"

/-- Snowflake `listTablesQuery` (source lines 93–103): never validates its
options; when `options?.schema` is truthy the statement filters to that
schema, otherwise it excludes the technical schemas; always ordered by
`TABLE_SCHEMA, TABLE_NAME`. Total — no code path throws. -/
def listTablesQuery (options : Option OptionsObject) : String :=
  joinSQLFragments [
    "SELECT TABLE_NAME AS \"tableName\",",
    "TABLE_SCHEMA AS \"schema\"",
    "FROM INFORMATION_SCHEMA.TABLES WHERE TABLE_TYPE = " ++ escape "BASE TABLE",
    (match options.bind (fun o => getOption o "schema") with
     | some v =>
       if truthyOf v then "AND TABLE_SCHEMA = " ++ escapeValue v
       else "AND TABLE_SCHEMA NOT IN ("
         ++ String.intercalate ", " (technicalSchemaNames.map escape) ++ ")"
     | none => "AND TABLE_SCHEMA NOT IN ("
         ++ String.intercalate ", " (technicalSchemaNames.map escape) ++ ")"),
    "ORDER BY TABLE_SCHEMA, TABLE_NAME"]

/-- Snowflake `truncateTableQuery` (source lines 105–117). -/
def truncateTableQuery (defaultSchema : String) (tableName : TableNameOrModel)
    (options : Option OptionsObject) : Except SequelizeError String :=
  match options with
  | some o =>
    match rejectInvalidOptions "truncateTableQuery" snowflakeDialectName
        TRUNCATE_TABLE_QUERY_SUPPORTABLE_OPTIONS
        TRUNCATE_TABLE_QUERY_SUPPORTED_OPTIONS o with
    | some e => .error e
    | none => .ok ("TRUNCATE " ++ quoteTable defaultSchema tableName)
  | none => .ok ("TRUNCATE " ++ quoteTable defaultSchema tableName)

/-- The fixed SELECT/JOIN prelude fragments of `showConstraintsQuery`
(source lines 133–148). -/
def showConstraintsPrelude : List String := [
  "SELECT c.CONSTRAINT_CATALOG AS constraintCatalog,",
  "c.CONSTRAINT_SCHEMA AS constraintSchema,",
  "c.CONSTRAINT_NAME AS constraintName,",
  "c.CONSTRAINT_TYPE AS constraintType,",
  "c.TABLE_CATALOG AS tableCatalog,",
  "c.TABLE_SCHEMA AS tableSchema,",
  "c.TABLE_NAME AS tableName,",
  "fk.TABLE_SCHEMA AS referencedTableSchema,",
  "fk.TABLE_NAME AS referencedTableName,",
  "r.DELETE_RULE AS deleteAction,",
  "r.UPDATE_RULE AS updateAction,",
  "c.IS_DEFERRABLE AS isDeferrable,",
  "c.INITIALLY_DEFERRED AS initiallyDeferred",
  "FROM INFORMATION_SCHEMA.TABLE_CONSTRAINTS c",
  "LEFT JOIN INFORMATION_SCHEMA.REFERENTIAL_CONSTRAINTS r ON c.CONSTRAINT_CATALOG = r.CONSTRAINT_CATALOG AND c.CONSTRAINT_SCHEMA = r.CONSTRAINT_SCHEMA AND c.CONSTRAINT_NAME = r.CONSTRAINT_NAME",
  "LEFT JOIN INFORMATION_SCHEMA.TABLE_CONSTRAINTS fk ON r.UNIQUE_CONSTRAINT_CATALOG = fk.CONSTRAINT_CATALOG AND r.UNIQUE_CONSTRAINT_SCHEMA = fk.CONSTRAINT_SCHEMA AND r.UNIQUE_CONSTRAINT_NAME = fk.CONSTRAINT_NAME"]

/-- Snowflake `showConstraintsQuery` (source lines 119–155): validates
supplied options, resolves the table, then emits the constraint-metadata
statement with optional `constraintName` / `constraintType` predicates
(truthy check) and a final `ORDER BY c.CONSTRAINT_NAME`. -/
def showConstraintsQuery (defaultSchema : String) (tableName : TableNameOrModel)
    (options : Option OptionsObject) : Except SequelizeError String :=
  let validation : Option SequelizeError :=
    match options with
    | some o =>
      rejectInvalidOptions "showConstraintsQuery" snowflakeDialectName
        SHOW_CONSTRAINTS_QUERY_SUPPORTABLE_OPTIONS
        SHOW_CONSTRAINTS_QUERY_SUPPORTED_OPTIONS o
    | none => none
  match validation with
  | some e => .error e
  | none =>
    let table := extractTableDetails defaultSchema tableName
    .ok (joinSQLFragments (showConstraintsPrelude ++ [
      "WHERE c.TABLE_NAME = " ++ escape table.tableName,
      "AND c.TABLE_SCHEMA = " ++ escape table.schema,
      (match options.bind (fun o => getOption o "constraintName") with
       | some v =>
         if truthyOf v then "AND c.CONSTRAINT_NAME = " ++ escapeValue v else ""
       | none => ""),
      (match options.bind (fun o => getOption o "constraintType") with
       | some v =>
         if truthyOf v then "AND c.CONSTRAINT_TYPE = " ++ escapeValue v else ""
       | none => ""),
      "ORDER BY c.CONSTRAINT_NAME"]))

/-- Snowflake `showIndexesQuery` (source lines 157–160): acknowledged stub. -/
def showIndexesQuery : String := "SELECT " ++ escape "" ++ " FROM DUAL"

/-- Snowflake `versionQuery` (source lines 162–164). -/
def versionQuery : String := "SELECT CURRENT_VERSION() AS \"version\""

/-! ## The transaction engine (`SequelizeTypeScript.transaction`,
source lines 352–436) -/

/-- `TransactionNestMode` (from `transaction.js`, named by the source and the
spec §4.4 step 1). -/
inductive TransactionNestMode
  | separate
  | reuse
  | savepoint
deriving DecidableEq

/-- One observable collaborator call issued by the transaction engine on a
transaction identified by its allocation number. -/
inductive TxEvent
  | prepare (tx : Nat)
  | commit (tx : Nat)
  | rollback (tx : Nat)
deriving DecidableEq

/-- The world threaded through the transaction model: `nextId` is the
allocation counter giving each `new Transaction(...)` a fresh identity,
`events` the log of prepare/commit/rollback calls issued so far. -/
structure TxWorld where
  nextId : Nat
  events : List TxEvent
deriving DecidableEq

/-- A stateful, possibly-throwing asynchronous computation. -/
abbrev TxM (α : Type) := TxWorld → Except SequelizeError α × TxWorld

/-- Modelled from the spec (§4.4, §6): outcome oracles for the `Transaction`
class methods `prepareEnvironment`, `commit` and `rollback`, whose code
(`transaction.js`) is not part of the given sources. `none` is success,
`some e` models the method throwing `e`. -/
structure TxEffects where
  prepareOutcome : Nat → Option SequelizeError
  commitOutcome : Nat → Option SequelizeError
  rollbackOutcome : Nat → Option SequelizeError

/-- The options of a managed `transaction(...)` call that this model
distinguishes: the requested nesting mode and an explicitly passed
transaction. All remaining options (isolation level, …) are abstracted into
the compatibility oracle. -/
structure ManagedTransactionOptions where
  nestMode : Option TransactionNestMode
  transaction : Option Nat
deriving DecidableEq

/-- `await transaction.rollback()` wrapped in `try { } catch { }` discards
the rollback outcome; this action performs the attempt (logging the event)
and reports the outcome for its caller to discard. -/
def attemptRollback (eff : TxEffects) (tx : Nat) : TxM Unit := fun w =>
  let w' : TxWorld := ⟨w.nextId, w.events ++ [TxEvent.rollback tx]⟩
  match eff.rollbackOutcome tx with
  | some e => (.error e, w')
  | none => (.ok (), w')

/-- The body of `SequelizeTypeScript.transaction` (source lines 376–436),
after the argument dispatch:
 * resolve the nesting mode from `options.nestMode` or the runtime default;
 * `separate`: delete `normalizedOptions.transaction`; otherwise take the
   explicitly passed transaction or, failing that, the ambient CLS
   transaction (`setTransactionFromCls`, modelled from the spec §4.4 step 2
   — its code is not part of the given sources), and check compatibility
   (`assertTransactionIsCompatibleWithOptions`, modelled from the spec as the
   oracle `compatible`, throwing `transactionIncompatible` when false);
 * reuse the ambient transaction in `reuse` mode, else allocate a fresh one;
 * run the wrapped callback under `cls.run` (the callback observes the
   chosen transaction as ambient when CLS is enabled): a reused transaction
   gets the raw callback with no prepare/commit/rollback; a created one is
   prepared, then on callback success committed, on callback failure rolled
   back with the rollback outcome discarded and the callback error
   re-thrown. -/
def transactionMethod {α : Type} (defaultNestMode : TransactionNestMode)
    (clsEnabled : Bool) (compatible : Nat → ManagedTransactionOptions → Bool)
    (eff : TxEffects) (options : ManagedTransactionOptions)
    (ambient : Option Nat) (callback : Nat → Option Nat → TxM α) : TxM α := fun w =>
  let nestMode := options.nestMode.getD defaultNestMode
  let normalizedTx : Option Nat :=
    if nestMode = TransactionNestMode.separate then none
    else
      match options.transaction with
      | some t => some t
      | none => if clsEnabled then ambient else none
  match normalizedTx with
  | some t =>
    if compatible t options then
      if nestMode = TransactionNestMode.reuse then
        -- reused: the callback runs directly; commit/rollback stay with the creator
        callback t (if clsEnabled then some t else none) w
      else
        -- savepoint (or an explicitly passed transaction): a fresh transaction,
        -- parented by `t` through the options, is created and managed here
        transactionRunOwned eff (callback) clsEnabled w
    else
      (.error SequelizeError.transactionIncompatible, w)
  | none => transactionRunOwned eff (callback) clsEnabled w
where
  /-- the non-reused path: allocate, prepare, run, commit-or-rollback. -/
  transactionRunOwned (eff : TxEffects) (callback : Nat → Option Nat → TxM α)
      (clsEnabled : Bool) : TxM α := fun w =>
    let tx := w.nextId
    let w₁ : TxWorld := ⟨w.nextId + 1, w.events ++ [TxEvent.prepare tx]⟩
    match eff.prepareOutcome tx with
    | some e => (.error e, w₁)
    | none =>
      match callback tx (if clsEnabled then some tx else none) w₁ with
      | (.ok r, w₂) =>
        let w₃ : TxWorld := ⟨w₂.nextId, w₂.events ++ [TxEvent.commit tx]⟩
        match eff.commitOutcome tx with
        | some e => (.error e, w₃)
        | none => (.ok r, w₃)
      | (.error e₁, w₂) =>
        let (_discarded, w₃) := attemptRollback eff tx w₂
        (.error e₁, w₃)

/-- The exact message of the source's missing-callback error
(source line 373). -/
def transactionRequiresCallbackMessage : String :=
  "sequelize.transaction requires a callback. If you wish to start an unmanaged transaction, please use sequelize.startUnmanagedTransaction instead"

/-- The first argument of the overloaded `transaction(...)` method: either
the callback itself or an options object. -/
inductive TransactionFirstArg (α : Type)
  | callbackArg (f : Nat → Option Nat → TxM α)
  | optionsArg (o : ManagedTransactionOptions)

/-- The argument dispatch of `SequelizeTypeScript.transaction`
(source lines 358–374): a function first argument becomes the callback with
empty options; otherwise the second argument must be the callback, and a
missing callback throws the `transactionRequiresCallbackMessage` error
before any transaction entity is constructed. -/
def transactionEntry {α : Type} (defaultNestMode : TransactionNestMode)
    (clsEnabled : Bool) (compatible : Nat → ManagedTransactionOptions → Bool)
    (eff : TxEffects) (first : TransactionFirstArg α)
    (second : Option (Nat → Option Nat → TxM α)) (ambient : Option Nat) : TxM α := fun w =>
  match first with
  | .callbackArg f =>
    transactionMethod defaultNestMode clsEnabled compatible eff
      ⟨none, none⟩ ambient f w
  | .optionsArg o =>
    match second with
    | none => (.error (.plainMessage transactionRequiresCallbackMessage), w)
    | some f =>
      transactionMethod defaultNestMode clsEnabled compatible eff o ambient f w

/-! ## Bulk table operations (`destroyAll` / `truncate`,
source lines 478–537) -/

/-- Modelled from the spec (§6, "Model registry"): the registered models and
`getModelsTopoSortedByForeignKey()`, which is `none` exactly when the
foreign-key graph is cyclic. The model-manager code is not part of the given
sources. -/
structure ModelRegistry where
  models : List Nat
  topoSorted : Option (List Nat)
deriving DecidableEq

/-- One per-model call issued by a bulk operation. -/
inductive BulkAction
  | destroyModel (m : Nat)
  | truncateModel (m : Nat)
deriving DecidableEq

/-- How a bulk operation schedules its per-model calls: awaited one by one
in order, concurrently via `Promise.all`, or concurrently inside a
`withoutForeignKeyChecks` connection scope. -/
inductive BulkSchedule
  | sequentially (actions : List BulkAction)
  | inParallel (actions : List BulkAction)
  | withoutFkChecksScope (actions : List BulkAction)
deriving DecidableEq

/-- The dialect descriptor (spec §3): identity and the
`supports.constraints.foreignKeyChecksDisableable` feature flag. -/
structure ConstraintsSupport where
  foreignKeyChecksDisableable : Bool
deriving DecidableEq

/-- Feature flags of a dialect (only the flag the claims need). -/
structure DialectSupports where
  constraints : ConstraintsSupport
deriving DecidableEq

/-- A dialect descriptor. -/
structure DialectModel where
  name : String
  supports : DialectSupports
deriving DecidableEq

/-- Options of `SequelizeTypeScript.destroyAll`: whether the caller's options
object is present and whether it contains the (rejected) `limit` /
`truncate` keys. -/
structure DestroyAllOptions where
  hasLimit : Bool
  hasTruncate : Bool
deriving DecidableEq

/-- Options of `SequelizeTypeScript.truncate`. -/
structure SequelizeTruncateOptions where
  cascade : Bool
  withoutForeignKeyChecks : Bool
deriving DecidableEq

/-- Message of the error thrown by `destroyAll` on a `limit` option
(source line 484). -/
def destroyAllLimitMessage : String :=
  "sequelize.destroyAll does not support the limit option."

/-- Message of the error thrown by `destroyAll` on a `truncate` option
(source line 488). -/
def destroyAllTruncateMessage : String :=
  "sequelize.destroyAll does not support the truncate option. Use sequelize.truncate instead."

/-- Message of the error thrown by `truncate` on a cyclic foreign-key graph
without an override flag (source line 509). -/
def truncateCyclicMessage : String :=
  "Sequelize#truncate: Some of your models have cyclic references (foreign keys). You need to use the \"cascade\" or \"withoutForeignKeyChecks\" options to be able to delete rows from models that have cyclic references."

/-- Message of the error thrown by `truncate` when the dialect cannot
disable foreign-key checks (source line 514). -/
def truncateFkChecksMessage (dialectName : String) : String :=
  "Sequelize#truncate: " ++ dialectName ++ " does not support disabling foreign key checks. The \"withoutForeignKeyChecks\" option cannot be used."

/-- `SequelizeTypeScript.destroyAll` (source lines 478–495): takes the
topologically sorted models when the graph is acyclic, otherwise the raw
registered models; rejects `limit` and `truncate` options; then destroys the
models one by one, awaited sequentially. There is no cyclic-dependency
check. -/
def destroyAll (registry : ModelRegistry) (options : Option DestroyAllOptions) :
    Except SequelizeError BulkSchedule :=
  let models := registry.topoSorted.getD registry.models
  match options with
  | some o =>
    if o.hasLimit then .error (.plainMessage destroyAllLimitMessage)
    else if o.hasTruncate then .error (.plainMessage destroyAllTruncateMessage)
    else .ok (.sequentially (models.map BulkAction.destroyModel))
  | none => .ok (.sequentially (models.map BulkAction.destroyModel))

/-- `SequelizeTypeScript.truncate` (source lines 503–537): fails fast on a
cyclic graph unless `cascade` or `withoutForeignKeyChecks` was supplied;
with `withoutForeignKeyChecks` requires the dialect feature flag (else fails
with the `truncateFkChecksMessage` error, before any connection or model
operation) and truncates all models in parallel inside the
`withoutForeignKeyChecks` scope; with `cascade` truncates sequentially in
order; otherwise truncates all models in parallel. -/
def truncate (dialect : DialectModel) (registry : ModelRegistry)
    (options : Option SequelizeTruncateOptions) :
    Except SequelizeError BulkSchedule :=
  let models := registry.topoSorted.getD registry.models
  let hasCyclicDependencies := registry.topoSorted.isNone
  let cascade := (options.map (fun o => o.cascade)).getD false
  let withoutFkChecks := (options.map (fun o => o.withoutForeignKeyChecks)).getD false
  if hasCyclicDependencies ∧ ¬cascade ∧ ¬withoutFkChecks then
    .error (.plainMessage truncateCyclicMessage)
  else if withoutFkChecks then
    if ¬dialect.supports.constraints.foreignKeyChecksDisableable then
      .error (.plainMessage (truncateFkChecksMessage dialect.name))
    else
      .ok (.withoutFkChecksScope (models.map BulkAction.truncateModel))
  else if cascade then
    .ok (.sequentially (models.map BulkAction.truncateModel))
  else
    .ok (.inParallel (models.map BulkAction.truncateModel))

/-! ## `SequelizeTypeScript.withConnection` (source lines 539–566) -/

/-- One observable connection-manager call. -/
inductive ConnEvent
  | acquire (c : Nat)
  | release (c : Nat)
  | destroy (c : Nat)
deriving DecidableEq

/-- World of the connection model: allocation counter for acquired
connections and the log of connection-manager calls. -/
structure ConnWorld where
  nextConn : Nat
  events : List ConnEvent
deriving DecidableEq

/-- The `withConnection` options the claims need (`type` defaults to
`'write'` in the dispatch and is never inspected afterwards). -/
structure WithConnectionOptions where
  destroyConnection : Bool
deriving DecidableEq

/-- The connection-returning event of `withConnection`'s `finally` block:
`destroyConnection` when the option is set, `releaseConnection` otherwise. -/
def connReturnEvent (options : WithConnectionOptions) (c : Nat) : ConnEvent :=
  if options.destroyConnection then ConnEvent.destroy c else ConnEvent.release c

/-- `SequelizeTypeScript.withConnection` (source lines 541–566) after the
argument dispatch: acquire a connection (`getConnectionOutcome` is the
oracle for `connectionManager.getConnection`, modelled from the spec §6 —
the connection-manager code is not part of the given sources; `some e`
models acquisition failure, in which case no connection exists and nothing
is released); run the callback in a `try`/`finally` whose `finally` block
returns the connection exactly once — `destroyConnection` or
`releaseConnection` per the option — and pass the callback's result (value
or error) through unchanged. -/
def withConnection {α : Type} (getConnectionOutcome : Option SequelizeError)
    (options : WithConnectionOptions)
    (callback : Nat → ConnWorld → Except SequelizeError α × ConnWorld)
    (w : ConnWorld) : Except SequelizeError α × ConnWorld :=
  match getConnectionOutcome with
  | some e => (.error e, w)
  | none =>
    let c := w.nextConn
    let w₁ : ConnWorld := ⟨c + 1, w.events ++ [ConnEvent.acquire c]⟩
    match callback c w₁ with
    | (result, w₂) => (result, ⟨w₂.nextConn, w₂.events ++ [connReturnEvent options c]⟩)

/-- Number of times connection `c` is returned to the manager (released or
destroyed) in an event log. -/
def connReturnCount (c : Nat) (events : List ConnEvent) : Nat :=
  events.count (ConnEvent.release c) + events.count (ConnEvent.destroy c)

/-! ## Lemmas about the string helpers -/

set_option maxRecDepth 10000

theorem strAppend_ne_empty (a b : String) (ha : a ≠ "") : a ++ b ≠ "" := by
  intro hab
  apply ha
  have hd := congrArg String.data hab
  rw [String.data_append] at hd
  exact String.ext (List.append_eq_nil.mp hd).1

theorem escape_ne_empty (s : String) : escape s ≠ "" := by
  intro h
  have hd := congrArg String.data h
  simp [escape] at hd

theorem joinSQLFragments_cons_empty (rest : List String) :
    joinSQLFragments ("" :: rest) = joinSQLFragments rest := by
  simp [joinSQLFragments]

theorem joinSQLFragments_singleton (f : String) : joinSQLFragments [f] = f := by
  by_cases h : f = "" <;> simp [joinSQLFragments, h]

theorem joinSQLFragments_cons_ne (f : String) (rest : List String) (hf : f ≠ "")
    (hrest : joinSQLFragments rest ≠ "") :
    joinSQLFragments (f :: rest) = f ++ " " ++ joinSQLFragments rest := by
  simp [joinSQLFragments, hf, hrest]

theorem joinSQLFragments_ne_empty (l : List String) (hl : l ≠ [])
    (h : ∀ f ∈ l, f ≠ "") : joinSQLFragments l ≠ "" := by
  induction l with
  | nil => exact absurd rfl hl
  | cons f rest ih =>
    by_cases hr : rest = []
    · subst hr
      rw [joinSQLFragments_singleton]
      exact h f (by simp)
    · have hrest := ih hr (fun g hg => h g (by simp [hg]))
      rw [joinSQLFragments_cons_ne f rest (h f (by simp)) hrest]
      exact strAppend_ne_empty _ _ (strAppend_ne_empty _ _ (h f (by simp)))

theorem joinSQLFragments_append_ne (l₁ l₂ : List String) (h₁ : l₁ ≠ [])
    (hall : ∀ f ∈ l₁, f ≠ "") (h₂ : joinSQLFragments l₂ ≠ "") :
    joinSQLFragments (l₁ ++ l₂) = joinSQLFragments l₁ ++ " " ++ joinSQLFragments l₂ := by
  induction l₁ with
  | nil => exact absurd rfl h₁
  | cons f rest ih =>
    by_cases hr : rest = []
    · subst hr
      rw [List.cons_append, List.nil_append,
        joinSQLFragments_cons_ne f l₂ (hall f (by simp)) h₂, joinSQLFragments_singleton]
    · have hallr : ∀ g ∈ rest, g ≠ "" := fun g hg => hall g (by simp [hg])
      have hrest := joinSQLFragments_ne_empty rest hr hallr
      have hrl₂ : joinSQLFragments (rest ++ l₂) ≠ "" := by
        rw [ih hr hallr]
        exact strAppend_ne_empty _ _ (strAppend_ne_empty _ _ hrest)
      rw [List.cons_append,
        joinSQLFragments_cons_ne f (rest ++ l₂) (hall f (by simp)) hrl₂, ih hr hallr,
        joinSQLFragments_cons_ne f rest (hall f (by simp)) hrest]
      simp [String.ext_iff, String.data_append]

theorem occursIn_nil_pat (l : List Char) : occursIn [] l = true := by
  cases l <;> simp [occursIn, leadsWith]

theorem leadsWith_append_right (p l B : List Char) (h : leadsWith p l = true) :
    leadsWith p (l ++ B) = true := by
  induction p generalizing l with
  | nil => rfl
  | cons a xs ih =>
    cases l with
    | nil => simp [leadsWith] at h
    | cons b ys =>
      simp only [leadsWith, Bool.and_eq_true, beq_iff_eq] at h ⊢
      exact ⟨h.1, ih ys h.2⟩

theorem occursIn_append_outer (p A B : List Char) (h : occursIn p A = true) :
    occursIn p (A ++ B) = true := by
  induction A with
  | nil =>
    have hp : p = [] := by
      cases p with
      | nil => rfl
      | cons a xs => simp [occursIn, leadsWith] at h
    subst hp
    exact occursIn_nil_pat B
  | cons c rest ih =>
    simp only [occursIn, Bool.or_eq_true] at h
    rcases h with h | h
    · exact occursIn_of_leadsWith _ _ (leadsWith_append_right p (c :: rest) B h)
    · simp only [List.cons_append, occursIn, Bool.or_eq_true]
      exact Or.inr (ih h)

theorem occursIn_append_inner (p A B : List Char) (h : occursIn p B = true) :
    occursIn p (A ++ B) = true := by
  induction A with
  | nil => exact h
  | cons c rest ih =>
    simp only [List.cons_append, occursIn, Bool.or_eq_true]
    exact Or.inr ih

theorem strContains_self (s : String) : strContains s s := by
  unfold strContains
  have := occursIn_append [] s.data []
  simpa using this

theorem strContains_appL (a b sub : String) (h : strContains a sub) :
    strContains (a ++ b) sub := by
  unfold strContains at h ⊢
  rw [String.data_append]
  exact occursIn_append_outer _ _ _ h

theorem strContains_appR (a b sub : String) (h : strContains b sub) :
    strContains (a ++ b) sub := by
  unfold strContains at h ⊢
  rw [String.data_append]
  exact occursIn_append_inner _ _ _ h

theorem endsIn_appR (a b sub : String) (h : endsIn b sub) : endsIn (a ++ b) sub := by
  obtain ⟨x, hx⟩ := h
  exact ⟨a.data ++ x, by rw [String.data_append, hx, List.append_assoc]⟩

theorem endsIn_self (s : String) : endsIn s s := ⟨[], by simp⟩

set_option maxRecDepth 40000

instance (s sub : String) : Decidable (strContains s sub) := by
  unfold strContains
  infer_instance

/-- The payload of a successful query-generator call (`""` on error). -/
def okOr (r : Except SequelizeError String) : String :=
  match r with
  | .ok q => q
  | .error _ => ""

/-! ## Claim theorems -/

/-- C4 counterexample: `destroyAll` on a cyclic foreign-key graph (the
registry's topological sort is `none`) with no options does **not** fail
with the cyclic-dependency error — it proceeds and destroys every model in
registration order. This refutes the claim that *both* bulk operations fail
fast with a `CyclicDependencyError` in that situation. -/
theorem destroyAll_cyclic_proceeds :
    destroyAll ⟨[1, 2], none⟩ none
      = .ok (.sequentially [BulkAction.destroyModel 1, BulkAction.destroyModel 2]) := rfl

/-- C4 (amended): `truncate` fails fast with the cyclic-dependency error
when the graph is cyclic and neither `cascade` nor `withoutForeignKeyChecks`
was supplied (returning the error before any per-model call is scheduled),
while `destroyAll` performs no cyclic check — on **every** cyclic registry
it proceeds over the raw registered models in registration order; when the
graph is acyclic both operations process the models in topologically sorted
order (`destroyAll` and cascading `truncate` sequentially, plain `truncate`
as a parallel batch over the sorted list). -/
theorem bulk_cyclic_and_topo_contract (d : DialectModel) (reg : ModelRegistry)
    (l : List Nat) (o : Option SequelizeTruncateOptions)
    (od : Option DestroyAllOptions) :
    (reg.topoSorted = none →
      (o.map (fun x => x.cascade)).getD false = false →
      (o.map (fun x => x.withoutForeignKeyChecks)).getD false = false →
      truncate d reg o = .error (.plainMessage truncateCyclicMessage)) ∧
    (reg.topoSorted = none →
      (od.map (fun x => x.hasLimit)).getD false = false →
      (od.map (fun x => x.hasTruncate)).getD false = false →
      destroyAll reg od = .ok (.sequentially (reg.models.map BulkAction.destroyModel))) ∧
    (reg.topoSorted = some l →
      ((od.map (fun x => x.hasLimit)).getD false = false →
        (od.map (fun x => x.hasTruncate)).getD false = false →
        destroyAll reg od = .ok (.sequentially (l.map BulkAction.destroyModel))) ∧
      ((o.map (fun x => x.cascade)).getD false = true →
        (o.map (fun x => x.withoutForeignKeyChecks)).getD false = false →
        truncate d reg o = .ok (.sequentially (l.map BulkAction.truncateModel))) ∧
      ((o.map (fun x => x.cascade)).getD false = false →
        (o.map (fun x => x.withoutForeignKeyChecks)).getD false = false →
        truncate d reg o = .ok (.inParallel (l.map BulkAction.truncateModel)))) := by
  refine ⟨?_, ?_, ?_⟩
  · intro hcyc hc hw
    unfold truncate
    rw [hcyc]
    simp [hc, hw]
  · intro hcyc hl ht
    unfold destroyAll
    rw [hcyc]
    cases od with
    | none => rfl
    | some x =>
      simp only [Option.map_some', Option.getD_some] at hl ht
      simp [hl, ht]
  · intro hsort
    refine ⟨?_, ?_, ?_⟩
    · intro hl ht
      unfold destroyAll
      rw [hsort]
      cases od with
      | none => rfl
      | some x =>
        simp only [Option.map_some', Option.getD_some] at hl ht
        simp [hl, ht]
    · intro hc hw
      unfold truncate
      rw [hsort]
      simp [hc, hw]
    · intro hc hw
      unfold truncate
      rw [hsort]
      simp [hc, hw]

/-- C4 witness: the amended contract applied to a concrete cyclic registry
(both the `truncate` error and the `destroyAll` registration-order
fallback, the latter with an explicit options object) and to a concrete
acyclic registry, all through `bulk_cyclic_and_topo_contract`. -/
theorem bulk_cyclic_and_topo_contract_witness :
    truncate ⟨"snowflake", ⟨⟨false⟩⟩⟩ ⟨[2, 1], none⟩ none
        = .error (.plainMessage truncateCyclicMessage) ∧
    destroyAll ⟨[2, 1], none⟩ (some ⟨false, false⟩)
        = .ok (.sequentially [BulkAction.destroyModel 2, BulkAction.destroyModel 1]) ∧
    destroyAll ⟨[2, 1], some [1, 2]⟩ none
        = .ok (.sequentially [BulkAction.destroyModel 1, BulkAction.destroyModel 2]) := by
  refine ⟨?_, ?_, ?_⟩
  · exact (bulk_cyclic_and_topo_contract ⟨"snowflake", ⟨⟨false⟩⟩⟩ ⟨[2, 1], none⟩ []
      none none).1 rfl rfl rfl
  · exact (bulk_cyclic_and_topo_contract ⟨"snowflake", ⟨⟨false⟩⟩⟩ ⟨[2, 1], none⟩ []
      none (some ⟨false, false⟩)).2.1 rfl rfl rfl
  · exact ((bulk_cyclic_and_topo_contract ⟨"snowflake", ⟨⟨false⟩⟩⟩ ⟨[2, 1], some [1, 2]⟩
      [1, 2] none none).2.2 rfl).1 rfl rfl

/-- C5: `truncate` with `withoutForeignKeyChecks: true` on a dialect whose
`supports.constraints.foreignKeyChecksDisableable` flag is `false` fails with
the unsupported-feature error naming the dialect; the result is the error
itself — no `withoutForeignKeyChecks` connection scope and no per-model
truncate call is ever scheduled. -/
theorem truncate_fkChecks_unsupported (d : DialectModel) (reg : ModelRegistry)
    (o : SequelizeTruncateOptions)
    (hw : o.withoutForeignKeyChecks = true)
    (hd : d.supports.constraints.foreignKeyChecksDisableable = false) :
    truncate d reg (some o)
      = .error (.plainMessage (truncateFkChecksMessage d.name)) := by
  unfold truncate
  simp [hw, hd]

/-- C5 witness: the theorem at a concrete dialect, registry and options. -/
theorem truncate_fkChecks_unsupported_witness :
    truncate ⟨"snowflake", ⟨⟨false⟩⟩⟩ ⟨[1], some [1]⟩ (some ⟨false, true⟩)
      = .error (.plainMessage (truncateFkChecksMessage "snowflake")) :=
  truncate_fkChecks_unsupported ⟨"snowflake", ⟨⟨false⟩⟩⟩ ⟨[1], some [1]⟩
    ⟨false, true⟩ rfl rfl

/-- C9: calling the managed `transaction` method with an options object and
no callback returns the missing-callback error with the world unchanged (no
transaction entity allocated, no prepare or other collaborator event
issued), and the error message directs the caller to
`startUnmanagedTransaction`. -/
theorem transaction_requires_callback {α : Type}
    (defaultNestMode : TransactionNestMode) (clsEnabled : Bool)
    (compatible : Nat → ManagedTransactionOptions → Bool) (eff : TxEffects)
    (o : ManagedTransactionOptions) (ambient : Option Nat) (w : TxWorld) :
    transactionEntry (α := α) defaultNestMode clsEnabled compatible eff
        (.optionsArg o) none ambient w
      = (.error (.plainMessage transactionRequiresCallbackMessage), w) ∧
    strContains transactionRequiresCallbackMessage "startUnmanagedTransaction" := by
  exact ⟨rfl, by decide⟩

/-- C10: `withConnection` hands the callback the acquired connection, then
returns that connection to the manager exactly once in the `finally` step —
`destroyConnection` when `options.destroyConnection` is set, otherwise
`releaseConnection` — and passes the callback's outcome (value or error)
through unchanged. -/
theorem withConnection_returns_once {α : Type} (options : WithConnectionOptions)
    (callback : Nat → ConnWorld → Except SequelizeError α × ConnWorld)
    (w : ConnWorld) (res : Except SequelizeError α) (w₂ : ConnWorld)
    (hcb : callback w.nextConn
        ⟨w.nextConn + 1, w.events ++ [ConnEvent.acquire w.nextConn]⟩ = (res, w₂)) :
    withConnection none options callback w
      = (res, ⟨w₂.nextConn, w₂.events ++ [connReturnEvent options w.nextConn]⟩) ∧
    connReturnCount w.nextConn (w₂.events ++ [connReturnEvent options w.nextConn])
      = connReturnCount w.nextConn w₂.events + 1 := by
  constructor
  · unfold withConnection
    dsimp only
    rw [hcb]
  · cases h : options.destroyConnection <;>
      simp [connReturnCount, connReturnEvent, h, List.count_append,
        List.count_singleton] <;> omega

/-- C10 witness: a concrete run whose callback returns normally, and one
whose callback throws, both through `withConnection_returns_once`. -/
theorem withConnection_returns_once_witness :
    withConnection (α := Nat) none ⟨false⟩ (fun c w' => (Except.ok c, w')) ⟨0, []⟩
      = (Except.ok 0, ⟨1, [ConnEvent.acquire 0] ++ [connReturnEvent ⟨false⟩ 0]⟩) ∧
    withConnection (α := Nat) none ⟨true⟩
        (fun _ w' => (Except.error (SequelizeError.userError 7), w')) ⟨0, []⟩
      = (Except.error (SequelizeError.userError 7),
         ⟨1, [ConnEvent.acquire 0] ++ [connReturnEvent ⟨true⟩ 0]⟩) := by
  constructor
  · exact (withConnection_returns_once ⟨false⟩ (fun c w' => (Except.ok c, w'))
      ⟨0, []⟩ (Except.ok 0) ⟨1, [ConnEvent.acquire 0]⟩ rfl).1
  · exact (withConnection_returns_once ⟨true⟩
      (fun _ w' => (Except.error (SequelizeError.userError 7), w'))
      ⟨0, []⟩ (Except.error (SequelizeError.userError 7)) ⟨1, [ConnEvent.acquire 0]⟩ rfl).1

/-- C1: in a managed transaction that is not reusing an ambient transaction,
when the unit-of-work callback throws `e₁` and the subsequent rollback
attempt throws `e₂` (the rollback outcome oracle reports `some e₂`), the
transaction method returns `e₁` — the rollback failure is discarded by the
empty `catch` and never replaces the original error — after logging the
rollback attempt. -/
theorem managed_rollback_failure_suppressed {α : Type}
    (defaultNestMode : TransactionNestMode) (clsEnabled : Bool)
    (compatible : Nat → ManagedTransactionOptions → Bool) (eff : TxEffects)
    (o : ManagedTransactionOptions) (cb : Nat → Option Nat → TxM α)
    (w w₂ : TxWorld) (e₁ e₂ : SequelizeError)
    (hot : o.transaction = none)
    (hprep : eff.prepareOutcome w.nextId = none)
    (hrb : eff.rollbackOutcome w.nextId = some e₂)
    (hcb : cb w.nextId (if clsEnabled then some w.nextId else none)
        ⟨w.nextId + 1, w.events ++ [TxEvent.prepare w.nextId]⟩ = (.error e₁, w₂)) :
    transactionMethod defaultNestMode clsEnabled compatible eff o none cb w
      = (.error e₁, ⟨w₂.nextId, w₂.events ++ [TxEvent.rollback w.nextId]⟩) := by
  unfold transactionMethod
  rw [hot]
  dsimp only
  have hnone : (if o.nestMode.getD defaultNestMode = TransactionNestMode.separate then none
      else if clsEnabled then (none : Option Nat) else none) = none := by
    cases clsEnabled <;> simp
  rw [hnone]
  unfold transactionMethod.transactionRunOwned
  dsimp only
  rw [hprep, hcb]
  dsimp only
  unfold attemptRollback
  rw [hrb]

/-- C1 witness: a concrete run in which the callback throws `userError 1`
and rollback throws `userError 2`; the method returns `userError 1`. -/
theorem managed_rollback_failure_suppressed_witness :
    transactionMethod (α := Nat) TransactionNestMode.savepoint true
        (fun _ _ => true)
        ⟨fun _ => none, fun _ => none, fun _ => some (SequelizeError.userError 2)⟩
        ⟨none, none⟩ none
        (fun _ _ w' => (Except.error (SequelizeError.userError 1), w')) ⟨0, []⟩
      = (Except.error (SequelizeError.userError 1),
         ⟨1, [TxEvent.prepare 0, TxEvent.rollback 0]⟩) :=
  managed_rollback_failure_suppressed TransactionNestMode.savepoint true
    (fun _ _ => true)
    ⟨fun _ => none, fun _ => none, fun _ => some (SequelizeError.userError 2)⟩
    ⟨none, none⟩ (fun _ _ w' => (Except.error (SequelizeError.userError 1), w'))
    ⟨0, []⟩ ⟨1, [TxEvent.prepare 0]⟩ (SequelizeError.userError 1)
    (SequelizeError.userError 2) rfl rfl rfl rfl

/-- C2: under nesting mode `reuse`, a managed transaction call nested inside
another managed transaction's unit of work receives the exact same
transaction as the outer call. The concrete nested scenario (first conjunct)
produces exactly one prepare/commit pair — the outer transaction's — and the
inner call's unit of work reports the outer transaction's identity
(`w.nextId`) as its own; in general (second conjunct) a reuse-mode call with
an ambient transaction and compatible options is exactly the direct
invocation of its unit of work with the ambient transaction: no prepare, no
commit, no rollback. -/
theorem reuse_nested_single_pair (defaultNestMode : TransactionNestMode)
    (compatible : Nat → ManagedTransactionOptions → Bool) (eff : TxEffects)
    (w : TxWorld)
    (hprep : eff.prepareOutcome w.nextId = none)
    (hcommit : eff.commitOutcome w.nextId = none)
    (hcompat : compatible w.nextId ⟨some TransactionNestMode.reuse, none⟩ = true) :
    transactionMethod (α := Nat) defaultNestMode true compatible eff
        ⟨some TransactionNestMode.reuse, none⟩ none
        (fun _tx amb =>
          transactionMethod defaultNestMode true compatible eff
            ⟨some TransactionNestMode.reuse, none⟩ amb
            (fun innerTx _ => fun w' => (.ok innerTx, w')))
        w
      = (.ok w.nextId,
         ⟨w.nextId + 1,
          w.events ++ [TxEvent.prepare w.nextId, TxEvent.commit w.nextId]⟩) ∧
    (∀ (β : Type) (opts : ManagedTransactionOptions) (t : Nat)
        (cb : Nat → Option Nat → TxM β) (w' : TxWorld),
      opts.nestMode.getD defaultNestMode = TransactionNestMode.reuse →
      opts.transaction = none →
      compatible t opts = true →
      transactionMethod defaultNestMode true compatible eff opts (some t) cb w'
        = cb t (some t) w') := by
  constructor
  · have hne : ¬(TransactionNestMode.reuse = TransactionNestMode.separate) := by decide
    simp only [transactionMethod, transactionMethod.transactionRunOwned, Option.getD_some]
    simp [hne, hprep, hcompat, hcommit]
  · intro β opts t cb w' hmode htx hcompat'
    unfold transactionMethod
    rw [htx]
    dsimp only
    rw [hmode]
    simp [hcompat']

/-- C2 witness: the nested reuse scenario on the empty world with
always-successful collaborators and always-compatible options. -/
theorem reuse_nested_single_pair_witness :
    transactionMethod (α := Nat) TransactionNestMode.savepoint true
        (fun _ _ => true) ⟨fun _ => none, fun _ => none, fun _ => none⟩
        ⟨some TransactionNestMode.reuse, none⟩ none
        (fun _tx amb =>
          transactionMethod TransactionNestMode.savepoint true (fun _ _ => true)
            ⟨fun _ => none, fun _ => none, fun _ => none⟩
            ⟨some TransactionNestMode.reuse, none⟩ amb
            (fun innerTx _ => fun w' => (.ok innerTx, w')))
        ⟨0, []⟩
      = (.ok 0, ⟨1, [TxEvent.prepare 0, TxEvent.commit 0]⟩) := by
  have h := (reuse_nested_single_pair TransactionNestMode.savepoint
    (fun _ _ => true) ⟨fun _ => none, fun _ => none, fun _ => none⟩
    ⟨0, []⟩ rfl rfl rfl).1
  simpa using h

/-- C6: under nesting mode `separate`, a managed transaction call nested
inside another managed transaction's unit of work constructs a brand-new
transaction: in the concrete nested scenario (first conjunct) the inner
unit of work reports identity `w.nextId + 1`, distinct from the outer
transaction `w.nextId` (second conjunct), and the event log shows the inner
transaction independently prepared and committed inside the outer pair; in
general (third conjunct) a separate-mode call is entirely independent of the
ambient transaction. -/
theorem separate_nested_distinct (defaultNestMode : TransactionNestMode)
    (compatible : Nat → ManagedTransactionOptions → Bool) (eff : TxEffects)
    (w : TxWorld)
    (hprep0 : eff.prepareOutcome w.nextId = none)
    (hprep1 : eff.prepareOutcome (w.nextId + 1) = none)
    (hcommit1 : eff.commitOutcome (w.nextId + 1) = none)
    (hcommit0 : eff.commitOutcome w.nextId = none) :
    transactionMethod (α := Nat) defaultNestMode true compatible eff
        ⟨some TransactionNestMode.separate, none⟩ none
        (fun _tx amb =>
          transactionMethod defaultNestMode true compatible eff
            ⟨some TransactionNestMode.separate, none⟩ amb
            (fun innerTx _ => fun w' => (.ok innerTx, w')))
        w
      = (.ok (w.nextId + 1),
         ⟨w.nextId + 2,
          w.events ++ [TxEvent.prepare w.nextId, TxEvent.prepare (w.nextId + 1),
            TxEvent.commit (w.nextId + 1), TxEvent.commit w.nextId]⟩) ∧
    w.nextId + 1 ≠ w.nextId ∧
    (∀ (β : Type) (opts : ManagedTransactionOptions) (amb₁ amb₂ : Option Nat)
        (cb : Nat → Option Nat → TxM β) (w' : TxWorld),
      opts.nestMode.getD defaultNestMode = TransactionNestMode.separate →
      transactionMethod defaultNestMode true compatible eff opts amb₁ cb w'
        = transactionMethod defaultNestMode true compatible eff opts amb₂ cb w') := by
  refine ⟨?_, by omega, ?_⟩
  · simp only [transactionMethod, transactionMethod.transactionRunOwned, Option.getD_some]
    simp [hprep0, hprep1, hcommit0, hcommit1]
  · intro β opts amb₁ amb₂ cb w' hmode
    unfold transactionMethod
    rw [hmode]
    simp

/-- C6 witness: the nested separate scenario on the empty world with
always-successful collaborators: inner transaction 1, outer transaction 0,
each with its own prepare/commit pair. -/
theorem separate_nested_distinct_witness :
    transactionMethod (α := Nat) TransactionNestMode.savepoint true
        (fun _ _ => true) ⟨fun _ => none, fun _ => none, fun _ => none⟩
        ⟨some TransactionNestMode.separate, none⟩ none
        (fun _tx amb =>
          transactionMethod TransactionNestMode.savepoint true (fun _ _ => true)
            ⟨fun _ => none, fun _ => none, fun _ => none⟩
            ⟨some TransactionNestMode.separate, none⟩ amb
            (fun innerTx _ => fun w' => (.ok innerTx, w')))
        ⟨0, []⟩
      = (.ok 1, ⟨2, [TxEvent.prepare 0, TxEvent.prepare 1,
          TxEvent.commit 1, TxEvent.commit 0]⟩) := by
  have h := (separate_nested_distinct TransactionNestMode.savepoint
    (fun _ _ => true) ⟨fun _ => none, fun _ => none, fun _ => none⟩
    ⟨0, []⟩ rfl rfl rfl rfl).1
  simpa using h

/-- Modelled from the spec (§4.3 table): the option universe of
`listTablesQuery` (an optional `schema` filter). The source declares no
supportable/supported set for this operation — it performs no validation. -/
def LIST_TABLES_QUERY_SUPPORTABLE_OPTIONS : List String := ["schema"]

/-- Modelled from the spec (§4.3 table): the option universe of
`listSchemasQuery` (an optional `skip` list). The source declares no
supportable/supported set for this operation — it performs no validation. -/
def LIST_SCHEMAS_QUERY_SUPPORTABLE_OPTIONS : List String := ["skip"]

/-- C3 counterexample: `listTablesQuery` and `listSchemasQuery` accept an
options object whose key the option validator rejects (under the spec's own
option universe for these operations) and compose SQL without failing. -/
theorem listQueries_skip_validation :
    rejectInvalidOptions "listTablesQuery" snowflakeDialectName
        LIST_TABLES_QUERY_SUPPORTABLE_OPTIONS LIST_TABLES_QUERY_SUPPORTABLE_OPTIONS
        [("bogus", OptionValue.str "x")]
      = some (.unknownOption "listTablesQuery" "bogus") ∧
    listTablesQuery (some [("bogus", OptionValue.str "x")]) = listTablesQuery none ∧
    rejectInvalidOptions "listSchemasQuery" snowflakeDialectName
        LIST_SCHEMAS_QUERY_SUPPORTABLE_OPTIONS LIST_SCHEMAS_QUERY_SUPPORTABLE_OPTIONS
        [("bogus", OptionValue.str "x")]
      = some (.unknownOption "listSchemasQuery" "bogus") ∧
    listSchemasQuery (some [("bogus", OptionValue.str "x")]) = listSchemasQuery none := by
  refine ⟨by decide, by decide, by decide, by decide⟩

/-- C3 (amended): the operations that do validate — here the claim's
`createDatabaseQuery`, plus `listDatabasesQuery`, `truncateTableQuery` and
`showConstraintsQuery` — pass a supplied options object through
`rejectInvalidOptions` before composing any SQL (a validator rejection is
returned verbatim and no statement is produced), and an absent options
object never fails validation; `listTablesQuery` and `listSchemasQuery`
perform no option validation at all: their result depends only on the
`schema` / `skip` option respectively, and they are total. -/
theorem option_validation_contract :
    (∀ (db : String) (o : OptionsObject) (e : SequelizeError),
      rejectInvalidOptions "createDatabaseQuery" snowflakeDialectName
          CREATE_DATABASE_QUERY_SUPPORTABLE_OPTIONS
          CREATE_DATABASE_QUERY_SUPPORTED_OPTIONS o = some e →
      createDatabaseQuery db (some o) = .error e) ∧
    (∀ db : String, ∃ q, createDatabaseQuery db none = .ok q) ∧
    (∀ (o : OptionsObject) (e : SequelizeError),
      rejectInvalidOptions "listDatabasesQuery" snowflakeDialectName
          LIST_DATABASES_QUERY_SUPPORTABLE_OPTIONS
          LIST_DATABASES_QUERY_SUPPORTED_OPTIONS o = some e →
      listDatabasesQuery (some o) = .error e) ∧
    listDatabasesQuery none = .ok "SHOW DATABASES" ∧
    (∀ (ds : String) (t : TableNameOrModel) (o : OptionsObject) (e : SequelizeError),
      rejectInvalidOptions "truncateTableQuery" snowflakeDialectName
          TRUNCATE_TABLE_QUERY_SUPPORTABLE_OPTIONS
          TRUNCATE_TABLE_QUERY_SUPPORTED_OPTIONS o = some e →
      truncateTableQuery ds t (some o) = .error e) ∧
    (∀ (ds : String) (t : TableNameOrModel), ∃ q, truncateTableQuery ds t none = .ok q) ∧
    (∀ (ds : String) (t : TableNameOrModel) (o : OptionsObject) (e : SequelizeError),
      rejectInvalidOptions "showConstraintsQuery" snowflakeDialectName
          SHOW_CONSTRAINTS_QUERY_SUPPORTABLE_OPTIONS
          SHOW_CONSTRAINTS_QUERY_SUPPORTED_OPTIONS o = some e →
      showConstraintsQuery ds t (some o) = .error e) ∧
    (∀ (ds : String) (t : TableNameOrModel), ∃ q, showConstraintsQuery ds t none = .ok q) ∧
    (∀ o o' : OptionsObject, getOption o "schema" = getOption o' "schema" →
      listTablesQuery (some o) = listTablesQuery (some o')) ∧
    (∀ o o' : OptionsObject, getOption o "skip" = getOption o' "skip" →
      listSchemasQuery (some o) = listSchemasQuery (some o')) := by
  refine ⟨?_, ?_, ?_, rfl, ?_, ?_, ?_, ?_, ?_, ?_⟩
  · intro db o e h
    unfold createDatabaseQuery
    dsimp only
    rw [h]
  · intro db
    exact ⟨_, rfl⟩
  · intro o e h
    unfold listDatabasesQuery
    dsimp only
    rw [h]
  · intro ds t o e h
    unfold truncateTableQuery
    dsimp only
    rw [h]
  · intro ds t
    exact ⟨_, rfl⟩
  · intro ds t o e h
    unfold showConstraintsQuery
    dsimp only
    rw [h]
  · intro ds t
    exact ⟨_, rfl⟩
  · intro o o' h
    unfold listTablesQuery
    simp [h]
  · intro o o' h
    unfold listSchemasQuery
    simp [h]

/-- C3 witness: the amended contract applied at concrete inputs — a
rejected `charset` option on `createDatabaseQuery` and an irrelevant extra
key on `listTablesQuery`. -/
theorem option_validation_contract_witness :
    createDatabaseQuery "db1" (some [("charset", OptionValue.str "utf8")])
      = .error (.dialectNotSupported "createDatabaseQuery" "snowflake" "charset") ∧
    listTablesQuery (some [("x", OptionValue.str "1"), ("schema", OptionValue.str "APP")])
      = listTablesQuery (some [("schema", OptionValue.str "APP")]) := by
  constructor
  · exact option_validation_contract.1 "db1" [("charset", OptionValue.str "utf8")]
      (.dialectNotSupported "createDatabaseQuery" "snowflake" "charset") (by decide)
  · exact (option_validation_contract.2.2.2.2.2.2.2.2.1)
      [("x", OptionValue.str "1"), ("schema", OptionValue.str "APP")]
      [("schema", OptionValue.str "APP")] (by decide)

theorem joinSQLFragments_five (a b c d e : String)
    (ha : a ≠ "") (hb : b ≠ "") (hc : c ≠ "") (hd : d ≠ "") (he : e ≠ "") :
    joinSQLFragments [a, b, c, d, e]
      = a ++ " " ++ (b ++ " " ++ (c ++ " " ++ (d ++ " " ++ e))) := by
  have t5 := joinSQLFragments_singleton e
  have t4 : joinSQLFragments [d, e] = d ++ " " ++ e := by
    rw [joinSQLFragments_cons_ne d [e] hd (by rw [t5]; exact he), t5]
  have t4ne : joinSQLFragments [d, e] ≠ "" := by
    rw [t4]; exact strAppend_ne_empty _ _ (strAppend_ne_empty _ _ hd)
  have t3 : joinSQLFragments [c, d, e] = c ++ " " ++ (d ++ " " ++ e) := by
    rw [joinSQLFragments_cons_ne c [d, e] hc t4ne, t4]
  have t3ne : joinSQLFragments [c, d, e] ≠ "" := by
    rw [t3]; exact strAppend_ne_empty _ _ (strAppend_ne_empty _ _ hc)
  have t2 : joinSQLFragments [b, c, d, e] = b ++ " " ++ (c ++ " " ++ (d ++ " " ++ e)) := by
    rw [joinSQLFragments_cons_ne b [c, d, e] hb t3ne, t3]
  have t2ne : joinSQLFragments [b, c, d, e] ≠ "" := by
    rw [t2]; exact strAppend_ne_empty _ _ (strAppend_ne_empty _ _ hb)
  rw [joinSQLFragments_cons_ne a [b, c, d, e] ha t2ne, t2]

/-- The statement `listTablesQuery` produces when a non-empty schema filter
`s` is supplied. -/
def listTablesFilterStatement (s : String) : String :=
  "SELECT TABLE_NAME AS \"tableName\", TABLE_SCHEMA AS \"schema\" FROM INFORMATION_SCHEMA.TABLES WHERE TABLE_TYPE = \x27BASE TABLE\x27 AND TABLE_SCHEMA = "
    ++ escape s ++ " ORDER BY TABLE_SCHEMA, TABLE_NAME"

/-- C7 (amended): `listTablesQuery` always orders by `(TABLE_SCHEMA,
TABLE_NAME)` ascending; when a **non-empty** `schema` option is supplied the
statement is exactly the filter form — schema-equality predicate, ending in
the ORDER BY clause, with no technical-schema exclusion branch — and when
the `schema` option is absent **or empty** (JS falsy) the statement is the
technical-schema exclusion statement, identical to calling with no
options. -/
theorem listTablesQuery_schema_branches (o : OptionsObject) (s : String) :
    (getOption o "schema" = some (.str s) → s ≠ "" →
      listTablesQuery (some o) = listTablesFilterStatement s ∧
      strContains (listTablesQuery (some o)) ("AND TABLE_SCHEMA = " ++ escape s) ∧
      endsIn (listTablesQuery (some o)) "ORDER BY TABLE_SCHEMA, TABLE_NAME") ∧
    (getOption o "schema" = none → listTablesQuery (some o) = listTablesQuery none) ∧
    (getOption o "schema" = some (.str "") →
      listTablesQuery (some o) = listTablesQuery none) := by
  refine ⟨?_, ?_, ?_⟩
  · intro h hs
    have hkey : listTablesQuery (some o) = listTablesFilterStatement s := by
      unfold listTablesQuery
      simp only [Option.some_bind, h, truthyOf, hs, decide_not, escapeValue]
      rw [if_pos (by simp [hs])]
      rw [joinSQLFragments_five _ _ _ _ _ (by decide) (by decide) (by decide)
        (strAppend_ne_empty _ _ (by decide)) (by decide)]
      rw [show listTablesFilterStatement s
          = ("SELECT TABLE_NAME AS \"tableName\"," ++ " " ++ ("TABLE_SCHEMA AS \"schema\"" ++ " "
             ++ ("FROM INFORMATION_SCHEMA.TABLES WHERE TABLE_TYPE = " ++ escape "BASE TABLE" ++ " "
             ++ "AND TABLE_SCHEMA = "))) ++ escape s
             ++ (" " ++ "ORDER BY TABLE_SCHEMA, TABLE_NAME")
        from by
          unfold listTablesFilterStatement
          rw [show ("SELECT TABLE_NAME AS \"tableName\", TABLE_SCHEMA AS \"schema\" FROM INFORMATION_SCHEMA.TABLES WHERE TABLE_TYPE = \x27BASE TABLE\x27 AND TABLE_SCHEMA = " : String)
            = ("SELECT TABLE_NAME AS \"tableName\"," ++ " " ++ ("TABLE_SCHEMA AS \"schema\"" ++ " "
               ++ ("FROM INFORMATION_SCHEMA.TABLES WHERE TABLE_TYPE = " ++ escape "BASE TABLE" ++ " "
               ++ "AND TABLE_SCHEMA = "))) from by decide]
          rw [show ((" ORDER BY TABLE_SCHEMA, TABLE_NAME" : String))
            = " " ++ "ORDER BY TABLE_SCHEMA, TABLE_NAME" from by decide]]
      simp only [String.append_assoc]
    refine ⟨hkey, ?_, ?_⟩
    · rw [hkey]
      unfold listTablesFilterStatement
      rw [show ("SELECT TABLE_NAME AS \"tableName\", TABLE_SCHEMA AS \"schema\" FROM INFORMATION_SCHEMA.TABLES WHERE TABLE_TYPE = \x27BASE TABLE\x27 AND TABLE_SCHEMA = " : String)
          = "SELECT TABLE_NAME AS \"tableName\", TABLE_SCHEMA AS \"schema\" FROM INFORMATION_SCHEMA.TABLES WHERE TABLE_TYPE = \x27BASE TABLE\x27 "
            ++ "AND TABLE_SCHEMA = " from by decide]
      apply strContains_intro _ _
        ("SELECT TABLE_NAME AS \"tableName\", TABLE_SCHEMA AS \"schema\" FROM INFORMATION_SCHEMA.TABLES WHERE TABLE_TYPE = \x27BASE TABLE\x27 " : String).data
        (" ORDER BY TABLE_SCHEMA, TABLE_NAME" : String).data
      simp [String.data_append, List.append_assoc]
    · rw [hkey]
      unfold listTablesFilterStatement
      rw [show ((" ORDER BY TABLE_SCHEMA, TABLE_NAME" : String))
          = " " ++ "ORDER BY TABLE_SCHEMA, TABLE_NAME" from by decide,
        String.append_assoc]
      exact endsIn_appR _ _ _ (endsIn_appR _ _ _ (endsIn_appR _ _ _ (endsIn_self _)))
  · intro h
    unfold listTablesQuery
    simp [h]
  · intro h
    unfold listTablesQuery
    simp [h, truthyOf]


/-- C7 counterexample: with the options object `{schema: ""}` — a supplied
`schema` option — the statement is the technical-schema exclusion statement
(identical to passing no options), contains no schema-equality predicate for
the supplied value, and does contain the `NOT IN` exclusion predicate,
refuting "if options.schema is given, the statement filters to exactly that
schema and contains no technical-schema exclusion predicate". -/
theorem listTablesQuery_empty_schema_given :
    listTablesQuery (some [("schema", OptionValue.str "")]) = listTablesQuery none ∧
    ¬ strContains (listTablesQuery (some [("schema", OptionValue.str "")]))
        ("AND TABLE_SCHEMA = " ++ escape "") ∧
    strContains (listTablesQuery (some [("schema", OptionValue.str "")])) "NOT IN" := by
  refine ⟨by decide, by decide, by decide⟩

/-- C7 witness: the filter branch at the spec's own example, schema `APP`. -/
theorem listTablesQuery_schema_branches_witness :
    listTablesQuery (some [("schema", OptionValue.str "APP")])
      = listTablesFilterStatement "APP" ∧
    strContains (listTablesQuery (some [("schema", OptionValue.str "APP")]))
      ("AND TABLE_SCHEMA = " ++ escape "APP") :=
  ⟨((listTablesQuery_schema_branches [("schema", OptionValue.str "APP")] "APP").1
      (by decide) (by decide)).1,
   ((listTablesQuery_schema_branches [("schema", OptionValue.str "APP")] "APP").1
      (by decide) (by decide)).2.1⟩

theorem strContains_empty_pat (s : String) : strContains s "" := by
  unfold strContains
  exact occursIn_nil_pat s.data

theorem joinSQLFragments_ne_empty_of_mem (l : List String) (f : String)
    (hf : f ∈ l) (hfe : f ≠ "") : joinSQLFragments l ≠ "" := by
  induction l with
  | nil => exact absurd hf (by simp)
  | cons g rest ih =>
    rcases List.mem_cons.mp hf with hg | hrest
    · subst hg
      by_cases hr : joinSQLFragments rest = "" <;>
        simp [joinSQLFragments, hfe, hr]
      exact strAppend_ne_empty _ _ (strAppend_ne_empty _ _ hfe)
    · have hne := ih hrest
      by_cases hg : g = ""
      · simp [joinSQLFragments, hg, hne]
      · simp [joinSQLFragments, hg, hne]
        exact strAppend_ne_empty _ _ (strAppend_ne_empty _ _ hg)

theorem joinSQLFragments_contains_mem (l : List String) (f : String)
    (hf : f ∈ l) : strContains (joinSQLFragments l) f := by
  induction l with
  | nil => exact absurd hf (by simp)
  | cons g rest ih =>
    rcases List.mem_cons.mp hf with hg | hrest
    · subst hg
      by_cases hfe : f = ""
      · subst hfe
        exact strContains_empty_pat _
      · by_cases hr : joinSQLFragments rest = ""
        · simp only [joinSQLFragments, if_neg hfe, hr, if_pos rfl]
          exact strContains_self f
        · simp only [joinSQLFragments, if_neg hfe, if_neg hr]
          exact strContains_appL _ _ _ (strContains_appL _ _ _ (strContains_self f))
    · by_cases hg : g = ""
      · simpa [joinSQLFragments, hg] using ih hrest
      · by_cases hr : joinSQLFragments rest = ""
        · by_cases hfe : f = ""
          · subst hfe
            exact strContains_empty_pat _
          · exact absurd hr (joinSQLFragments_ne_empty_of_mem rest f hrest hfe)
        · simp only [joinSQLFragments, if_neg hg, if_neg hr]
          exact strContains_appR _ _ _ (ih hrest)

theorem joinSQLFragments_endsIn_last (l : List String) (ord : String)
    (hord : ord ≠ "") : endsIn (joinSQLFragments (l ++ [ord])) ord := by
  induction l with
  | nil =>
    rw [List.nil_append, joinSQLFragments_singleton]
    exact endsIn_self ord
  | cons g rest ih =>
    rw [List.cons_append]
    by_cases hg : g = ""
    · rw [hg, joinSQLFragments_cons_empty]
      exact ih
    · have hne : joinSQLFragments (rest ++ [ord]) ≠ "" :=
        joinSQLFragments_ne_empty_of_mem _ ord (by simp) hord
      rw [joinSQLFragments_cons_ne g _ hg hne]
      exact endsIn_appR _ _ _ ih

/-- C8 (amended): for **every** table reference and every options argument
that passes validation — absent options, options without a constraint
filter, or options with the filters — the statement produced by
`showConstraintsQuery` is filtered to the resolved table's name and schema,
ends in `ORDER BY c.CONSTRAINT_NAME` (ascending by default), and selects the
referenced-table identity and update/delete action columns for foreign
keys; additionally, whenever a **non-empty** `constraintName` is supplied
the constraint-name equality predicate is present, and likewise for a
non-empty `constraintType`. -/
theorem showConstraintsQuery_filters (ds : String) (t : TableNameOrModel)
    (options : Option OptionsObject)
    (hval : ∀ o, options = some o →
      rejectInvalidOptions "showConstraintsQuery" snowflakeDialectName
        SHOW_CONSTRAINTS_QUERY_SUPPORTABLE_OPTIONS
        SHOW_CONSTRAINTS_QUERY_SUPPORTED_OPTIONS o = none) :
    ∃ q, showConstraintsQuery ds t options = .ok q ∧
      strContains q ("WHERE c.TABLE_NAME = " ++ escape (extractTableDetails ds t).tableName) ∧
      strContains q ("AND c.TABLE_SCHEMA = " ++ escape (extractTableDetails ds t).schema) ∧
      endsIn q "ORDER BY c.CONSTRAINT_NAME" ∧
      strContains q "fk.TABLE_SCHEMA AS referencedTableSchema," ∧
      strContains q "fk.TABLE_NAME AS referencedTableName," ∧
      strContains q "r.DELETE_RULE AS deleteAction," ∧
      strContains q "r.UPDATE_RULE AS updateAction," ∧
      (∀ cn : String,
        options.bind (fun o => getOption o "constraintName") = some (OptionValue.str cn) →
        cn ≠ "" →
        strContains q ("AND c.CONSTRAINT_NAME = " ++ escape cn)) ∧
      (∀ ct : String,
        options.bind (fun o => getOption o "constraintType") = some (OptionValue.str ct) →
        ct ≠ "" →
        strContains q ("AND c.CONSTRAINT_TYPE = " ++ escape ct)) := by
  have hvalidation : (match options with
      | some o => rejectInvalidOptions "showConstraintsQuery" snowflakeDialectName
          SHOW_CONSTRAINTS_QUERY_SUPPORTABLE_OPTIONS
          SHOW_CONSTRAINTS_QUERY_SUPPORTED_OPTIONS o
      | none => none) = none := by
    cases options with
    | none => rfl
    | some o => exact hval o rfl
  unfold showConstraintsQuery
  dsimp only
  rw [hvalidation]
  refine ⟨_, rfl, ?_, ?_, ?_, ?_, ?_, ?_, ?_, ?_, ?_⟩
  · exact joinSQLFragments_contains_mem _ _ (by simp)
  · exact joinSQLFragments_contains_mem _ _ (by simp)
  · have hsplit : showConstraintsPrelude ++
        ["WHERE c.TABLE_NAME = " ++ escape (extractTableDetails ds t).tableName,
          "AND c.TABLE_SCHEMA = " ++ escape (extractTableDetails ds t).schema,
          (match options.bind (fun o => getOption o "constraintName") with
           | some v => if truthyOf v = true then "AND c.CONSTRAINT_NAME = " ++ escapeValue v else ""
           | none => ""),
          (match options.bind (fun o => getOption o "constraintType") with
           | some v => if truthyOf v = true then "AND c.CONSTRAINT_TYPE = " ++ escapeValue v else ""
           | none => ""),
          "ORDER BY c.CONSTRAINT_NAME"]
      = (showConstraintsPrelude ++
        ["WHERE c.TABLE_NAME = " ++ escape (extractTableDetails ds t).tableName,
          "AND c.TABLE_SCHEMA = " ++ escape (extractTableDetails ds t).schema,
          (match options.bind (fun o => getOption o "constraintName") with
           | some v => if truthyOf v = true then "AND c.CONSTRAINT_NAME = " ++ escapeValue v else ""
           | none => ""),
          (match options.bind (fun o => getOption o "constraintType") with
           | some v => if truthyOf v = true then "AND c.CONSTRAINT_TYPE = " ++ escapeValue v else ""
           | none => "")]) ++ ["ORDER BY c.CONSTRAINT_NAME"] := by
      simp
    rw [hsplit]
    exact joinSQLFragments_endsIn_last _ _ (by decide)
  · exact joinSQLFragments_contains_mem _ _ (by simp [showConstraintsPrelude])
  · exact joinSQLFragments_contains_mem _ _ (by simp [showConstraintsPrelude])
  · exact joinSQLFragments_contains_mem _ _ (by simp [showConstraintsPrelude])
  · exact joinSQLFragments_contains_mem _ _ (by simp [showConstraintsPrelude])
  · intro cn hcn hcne
    apply joinSQLFragments_contains_mem
    rw [hcn]
    have heq : (match some (OptionValue.str cn) with
        | some v => if truthyOf v = true then "AND c.CONSTRAINT_NAME = " ++ escapeValue v else ""
        | none => "") = "AND c.CONSTRAINT_NAME = " ++ escape cn := by
      dsimp only
      rw [if_pos (by simp [truthyOf, hcne])]
      rfl
    rw [heq]
    simp
  · intro ct hct hctne
    apply joinSQLFragments_contains_mem
    rw [hct]
    have heq : (match some (OptionValue.str ct) with
        | some v => if truthyOf v = true then "AND c.CONSTRAINT_TYPE = " ++ escapeValue v else ""
        | none => "") = "AND c.CONSTRAINT_TYPE = " ++ escape ct := by
      dsimp only
      rw [if_pos (by simp [truthyOf, hctne])]
      rfl
    rw [heq]
    simp


/-- C8 counterexample: the options object `{constraintName: ""}` — a
supplied `constraintName` — produces the same statement as passing no
options at all: no constraint-name equality predicate is added (JS
truthiness drops the empty string), refuting "an additional equality
predicate on the constraint name when options.constraintName is
supplied". -/
theorem showConstraints_empty_name_given :
    okOr (showConstraintsQuery "PUBLIC" (TableNameOrModel.qualified "S" "T")
        (some [("constraintName", OptionValue.str "")]))
      = okOr (showConstraintsQuery "PUBLIC" (TableNameOrModel.qualified "S" "T") none) ∧
    ¬ strContains (okOr (showConstraintsQuery "PUBLIC" (TableNameOrModel.qualified "S" "T")
        (some [("constraintName", OptionValue.str "")])))
      ("AND c.CONSTRAINT_NAME = " ++ escape "") := by
  refine ⟨by decide, by decide⟩


/-- C8 witness: the spec's own example — constraint name `PK_1` — and the
no-options call, both through `showConstraintsQuery_filters`. -/
theorem showConstraintsQuery_filters_witness :
    strContains (okOr (showConstraintsQuery "PUBLIC" (TableNameOrModel.qualified "S" "T")
        (some [("constraintName", OptionValue.str "PK_1")])))
      ("AND c.CONSTRAINT_NAME = " ++ escape "PK_1") ∧
    endsIn (okOr (showConstraintsQuery "PUBLIC" (TableNameOrModel.qualified "S" "T")
        (some [("constraintName", OptionValue.str "PK_1")])))
      "ORDER BY c.CONSTRAINT_NAME" ∧
    endsIn (okOr (showConstraintsQuery "PUBLIC" (TableNameOrModel.qualified "S" "T") none))
      "ORDER BY c.CONSTRAINT_NAME" := by
  obtain ⟨q, hq, _, _, hord, _, _, _, _, hcn, _⟩ :=
    showConstraintsQuery_filters "PUBLIC" (TableNameOrModel.qualified "S" "T")
      (some [("constraintName", OptionValue.str "PK_1")])
      (fun o ho => by cases ho; decide)
  obtain ⟨q', hq', _, _, hord', _⟩ :=
    showConstraintsQuery_filters "PUBLIC" (TableNameOrModel.qualified "S" "T") none
      (fun o ho => by cases ho)
  have hok : okOr (showConstraintsQuery "PUBLIC" (TableNameOrModel.qualified "S" "T")
      (some [("constraintName", OptionValue.str "PK_1")])) = q := by
    rw [hq]
    rfl
  have hok' : okOr (showConstraintsQuery "PUBLIC" (TableNameOrModel.qualified "S" "T") none)
      = q' := by
    rw [hq']
    rfl
  rw [hok, hok']
  exact ⟨hcn "PK_1" (by decide) (by decide), hord, hord'⟩
